import Mathlib

/-!
Verification development for the EC2 patching report pipeline
(combined_pre_post_patching.py, pre_patch_notification.py, post_patch_notification.py).

The pipeline's core is shallowly embedded here:
 * the Target Resolver (get_target_count),
 * the Execution Status Resolver (get_patch_status_counts),
 * the post-patch row loop with its session cache (post_patch_function's loop),
 * the pre-patch window scan (pre_patch_notification's window loop).

AWS API lookups are modelled as environment functions returning Except Unit,
where Except.error models a raised exception.  Python ints become Nat, Python
strings become String, and Python sets are modelled by deduplicating lists.
-/

namespace EC2Patching

/-- Python str.startswith, expressed over the character lists of the strings
(semantically identical; the character-list form reduces in the kernel). -/
def strStartsWith (s pre : String) : Bool :=
  List.isPrefixOf pre.toList s.toList

/-- One target rule of a maintenance-window target: the dict
{"Key": ..., "Values": [...]} iterated by get_target_count. -/
structure Rule where
  key : String
  values : List String
deriving DecidableEq

/-- One MW target: an element of targets_response["Targets"]; its "Targets"
field is the list of rules. -/
structure MWTarget where
  targets : List Rule
deriving DecidableEq

/-- One member of a resource group, as returned by list_group_resources:
the code reads resource["ResourceType"]; the identifier is carried for the
spec-side union model. -/
structure ResourceRef where
  resourceType : String
  resourceId : String
deriving DecidableEq

/-- An EC2 describe-instances filter dict {"Name": ..., "Values": [...]}. -/
structure Filter where
  name : String
  values : List String
deriving DecidableEq

/-- Result of paginating ec2.describe_instances over a filter list: the
instance ids of all instances on all pages, in order.  Except.error models a
raised exception. -/
abbrev Ec2 := List Filter → Except Unit (List String)

/-- Result of paginating resourcegroups.list_group_resources for a group
name.  Except.error models a raised exception. -/
abbrev Rg := String → Except Unit (List ResourceRef)

/-- The "tag:"-rule translation: tag_key = key.split("tag:")[1] and the filter
name is "tag:" + tag_key.  (The index-1 access cannot fail here because the
branch is guarded by key.startswith("tag:"), which forces at least two split
segments; getD mirrors that.) -/
def mkTagFilter (rule : Rule) : Filter :=
  ⟨"tag:" ++ ((rule.key.splitOn "tag:").getD 1 ""), rule.values⟩

/-- The body of the rule loop in get_target_count.  The accumulator carries
(total, tag_filters).  Branches, in source order:
 * Key == "InstanceIds": total += len(values);
 * key.startswith("tag:"): append the translated filter to tag_filters;
 * Key == "resource-groups:Name": the source evaluates
   logger.debug(f"Resolving Resource Group: {group_name}") BEFORE the
   for-loop that binds group_name, so entering this branch raises
   UnboundLocalError before any group is resolved — modelled as an error;
 * anything else: logged as unsupported and skipped. -/
def processRule (acc : Nat × List Filter) (rule : Rule) : Except Unit (Nat × List Filter) :=
  if rule.key == "InstanceIds" then
    Except.ok (acc.1 + rule.values.length, acc.2)
  else if strStartsWith rule.key "tag:" then
    Except.ok (acc.1, acc.2 ++ [mkTagFilter rule])
  else if rule.key == "resource-groups:Name" then
    Except.error ()
  else
    Except.ok acc

/-- Processing of one MW target in get_target_count: run the rule loop, then
resolve the collected tag filters (if any) with one paginated
describe_instances call, deduplicating the instance ids with a set and adding
the set's size to the running total. -/
def processTarget (ec2 : Ec2) (total : Nat) (t : MWTarget) : Except Unit Nat :=
  match t.targets.foldlM processRule (total, []) with
  | Except.error e => Except.error e
  | Except.ok (total1, tagFilters) =>
    if tagFilters.isEmpty then Except.ok total1
    else
      match ec2 tagFilters with
      | Except.error e => Except.error e
      | Except.ok ids => Except.ok (total1 + ids.dedup.length)

/-- The body of get_target_count's try block: fetch the window's MW targets
(first argument: the outcome of ssm.describe_maintenance_window_targets) and
fold the per-target processing over them.  The resourcegroups client is a
parameter of the source function but is never reached (see processRule). -/
def get_target_count_core (ssm : Except Unit (List MWTarget)) (ec2 : Ec2) (rg : Rg) :
    Except Unit Nat :=
  match ssm with
  | Except.error e => Except.error e
  | Except.ok ts => ts.foldlM (processTarget ec2) 0

/-- get_target_count: any exception anywhere in the resolution is caught by
the enclosing handler, which logs and returns 0 for the whole window. -/
def get_target_count (ssm : Except Unit (List MWTarget)) (ec2 : Ec2) (rg : Rg) : Nat :=
  match get_target_count_core ssm ec2 rg with
  | Except.ok n => n
  | Except.error _ => 0

/-- Per-rule contribution counted for an InstanceIds rule (len(values);
zero for every other rule kind). -/
def ruleIidLen (r : Rule) : Nat :=
  if r.key == "InstanceIds" then r.values.length else 0

/-- Sum of the InstanceIds contributions of a rule list. -/
def iidSum (rules : List Rule) : Nat :=
  (rules.map ruleIidLen).sum

/-- The tag filter contributed by one rule, following the branch order of the
rule loop: nothing for InstanceIds rules, the translated filter for
"tag:"-prefixed keys, nothing otherwise. -/
def ruleTagFilter (r : Rule) : Option Filter :=
  if r.key == "InstanceIds" then none
  else if strStartsWith r.key "tag:" then some (mkTagFilter r)
  else none

/-- The tag_filters list collected by the rule loop of one MW target. -/
def ruleTagFilters (rules : List Rule) : List Filter :=
  rules.filterMap ruleTagFilter

/-- Whether a rule reaches the resource-group branch of the rule loop
(key equal to "resource-groups:Name" after failing the first two tests). -/
def isRGRule (r : Rule) : Bool :=
  !(r.key == "InstanceIds") && !(strStartsWith r.key "tag:") &&
    (r.key == "resource-groups:Name")

/-- Whether some rule of the list reaches the resource-group branch. -/
def hasRG (rules : List Rule) : Bool :=
  rules.any isRGRule

/-- The tag-resolution contribution of one MW target: 0 when no tag filters
were collected, otherwise the size of the deduplicated instance-id set
returned by describe_instances (0 if that call is never consulted because it
would fail — used only under success hypotheses). -/
def tagCount (ec2 : Ec2) (t : MWTarget) : Nat :=
  if (ruleTagFilters t.targets).isEmpty then 0
  else
    match ec2 (ruleTagFilters t.targets) with
    | Except.ok ids => ids.dedup.length
    | Except.error _ => 0

/-- Whether an Except value is a success. -/
def isOkE {α : Type} : Except Unit α → Bool
  | Except.ok _ => true
  | Except.error _ => false

/-- Modelled from the spec wording (section 3 invariant): targetInstanceCount
as "the cardinality of the union of instance identifiers resolved from all
rule variants within one maintenance window's targets", summed over MW
targets (no deduplication across MW targets).  InstanceIds rules contribute
their listed values, tag rules contribute the ids resolved by the target's
merged tag lookup, and resource-group rules contribute the identifiers of the
group members whose type is the compute-instance type. -/
def specTargetUnionCount (ts : List MWTarget) (ec2ids : List Filter → List String)
    (groupMembers : String → List ResourceRef) : Nat :=
  (ts.map (fun t =>
    (((t.targets.filter (fun r => r.key == "InstanceIds")).flatMap (fun r => r.values))
      ++ (if (ruleTagFilters t.targets).isEmpty then []
          else ec2ids (ruleTagFilters t.targets))
      ++ ((t.targets.filter (fun r => r.key == "resource-groups:Name")).flatMap
            (fun r => ((r.values.flatMap groupMembers).filter
              (fun m => m.resourceType == "AWS::EC2::Instance")).map
                (fun m => m.resourceId)))).dedup.length)).sum

/-- Modelled from the spec (section 4.2 step 5): the count a resource-group
rule is supposed to add for one group: the number of member resources whose
resource type is the compute-instance type. -/
def groupInstanceCount (members : List ResourceRef) : Nat :=
  (members.filter (fun m => m.resourceType == "AWS::EC2::Instance")).length

/-! ## Execution Status Resolver (get_patch_status_counts) -/

/-- One entry of WindowExecutions as used by the code: its id and start time
(start times modelled as naturals). -/
structure Execution where
  windowExecutionId : String
  startTime : Nat
deriving DecidableEq

instance : Inhabited Execution := ⟨⟨"", 0⟩⟩

/-- One entry of WindowExecutionTaskIdentities: TaskArn and TaskExecutionId. -/
structure TaskIdent where
  taskArn : String
  taskExecutionId : String
deriving DecidableEq

/-- The three outcomes of the embedded Parameters payload handling in the
source: raw_params empty or not a string (the parse is skipped), a non-empty
string that fails json.loads (logged, operation stays []), or a successful
parse from which parsed["parameters"]["Operation"] is extracted (defaulting
to [] when absent, which the parsed constructor covers with an empty list). -/
inductive ParamsField where
  | absent
  | malformed
  | parsed (operation : List String)
deriving DecidableEq

/-- The operation list obtained from an invocation's Parameters payload. -/
def extractOperation : ParamsField → List String
  | ParamsField.absent => []
  | ParamsField.malformed => []
  | ParamsField.parsed ops => ops

/-- One entry of WindowExecutionTaskInvocationIdentities: the Parameters
payload and the command ExecutionId (inv.get("ExecutionId"); the empty string
models a missing or empty id, both falsy in the source's check). -/
structure Invocation where
  parameters : ParamsField
  executionId : String
deriving DecidableEq

/-- One entry of CommandInvocations: per-instance id and status. -/
structure CommandInvocation where
  instanceId : String
  status : String
deriving DecidableEq

/-- The SSM lookups consulted by get_patch_status_counts.  Each models the
flattened pages of the corresponding (paginated) call; Except.error models a
raised exception. -/
structure SEnv where
  listExecutions : Nat → Except Unit (List Execution)
  listTasks : String → Except Unit (List TaskIdent)
  listInvocations : String → String → Except Unit (List Invocation)
  listCommandInvocations : String → Except Unit (List CommandInvocation)

/-- Membership in the failure status tuple
("Failed", "TimedOut", "Cancelled", "ExecutionTimedOut"). -/
def isFailureStatus (st : String) : Bool :=
  st == "Failed" || st == "TimedOut" || st == "Cancelled" || st == "ExecutionTimedOut"

/-- The per-instance tally step: "Success" increments the success counter,
a failure status increments the failure counter, anything else is ignored. -/
def tallyStatus (acc : Nat × Nat) (st : String) : Nat × Nat :=
  if st == "Success" then (acc.1 + 1, acc.2)
  else if isFailureStatus st then (acc.1, acc.2 + 1)
  else acc

/-- Processing of one task invocation: extract the operation list; skip the
invocation unless it contains "Install"; skip it when the command id is
missing/empty; otherwise paginate list_command_invocations and tally each
per-instance status. -/
def processInvocation (env : SEnv) (acc : Nat × Nat) (inv : Invocation) :
    Except Unit (Nat × Nat) :=
  if !((extractOperation inv.parameters).contains "Install") then
    Except.ok acc
  else if inv.executionId == "" then
    Except.ok acc
  else
    match env.listCommandInvocations inv.executionId with
    | Except.error e => Except.error e
    | Except.ok cmds => Except.ok (cmds.foldl (fun a c => tallyStatus a c.status) acc)

/-- Processing of one execution task: only the AWS-RunPatchBaseline task is
evaluated; its invocations are paginated and folded. -/
def processTask (env : SEnv) (execId : String) (acc : Nat × Nat) (task : TaskIdent) :
    Except Unit (Nat × Nat) :=
  if !(task.taskArn == "AWS-RunPatchBaseline") then
    Except.ok acc
  else
    match env.listInvocations execId task.taskExecutionId with
    | Except.error e => Except.error e
    | Except.ok invs => invs.foldlM (processInvocation env) acc

/-- The tally computed from the tasks of one window execution, starting from
success = 0, failure = 0. -/
def tallyExecution (env : SEnv) (execId : String) : Except Unit (Nat × Nat) :=
  match env.listTasks execId with
  | Except.error e => Except.error e
  | Except.ok tasks => tasks.foldlM (processTask env execId) (0, 0)

/-- Descending comparison on start times, as used by
executions.sort(key=lambda x: x["StartTime"], reverse=True). -/
def descByStartTime (a b : Execution) : Prop :=
  b.startTime ≤ a.startTime

instance : DecidableRel descByStartTime :=
  fun a b => Nat.decLe b.startTime a.startTime

/-- The execution the code selects: executions[0] after the stable descending
sort by start time.  (Python's list.sort is stable, also with reverse=True;
insertionSort with this relation is that stable descending sort.) -/
def latestExecution (execs : List Execution) : Execution :=
  (execs.insertionSort descByStartTime).headI

/-- The body of get_patch_status_counts' try block: guard on the "mw-"
prefix, fetch up to 10 executions, return (0, 0) when none exist, otherwise
tally the tasks of the latest execution. -/
def get_patch_status_counts_core (env : SEnv) (window_id : String) :
    Except Unit (Nat × Nat) :=
  if strStartsWith window_id "mw-" then
    match env.listExecutions 10 with
    | Except.error e => Except.error e
    | Except.ok executions =>
      if executions.isEmpty then Except.ok (0, 0)
      else tallyExecution env (latestExecution executions).windowExecutionId
  else
    Except.ok (0, 0)

/-- get_patch_status_counts: the enclosing handler catches any exception,
logs it, and falls off the end of the function — the caller receives no
(success, failure) pair, modelled as none. -/
def get_patch_status_counts (env : SEnv) (window_id : String) : Option (Nat × Nat) :=
  match get_patch_status_counts_core env window_id with
  | Except.ok p => some p
  | Except.error _ => none

-- sanity checks (scratch)
example :
    get_target_count
      (Except.ok [⟨[⟨"InstanceIds", ["i-1"]⟩, ⟨"InstanceIds", ["i-1"]⟩]⟩])
      (fun _ => Except.ok []) (fun _ => Except.ok []) = 2 := by rfl

example :
    get_target_count
      (Except.ok [⟨[⟨"resource-groups:Name", ["grp1"]⟩]⟩])
      (fun _ => Except.ok []) (fun _ => Except.ok [⟨"AWS::EC2::Instance", "i-9"⟩]) = 0 := by rfl

example :
    get_target_count
      (Except.ok [⟨[⟨"InstanceIds", ["i-1"]⟩]⟩, ⟨[⟨"tag:Env", ["prod"]⟩]⟩])
      (fun _ => Except.ok ["i-2", "i-2", "i-3"]) (fun _ => Except.ok []) = 3 := by rfl

example :
    specTargetUnionCount [⟨[⟨"InstanceIds", ["i-1"]⟩, ⟨"InstanceIds", ["i-1"]⟩]⟩]
      (fun _ => []) (fun _ => []) = 1 := by rfl

/-! ## Post-patch loop (post_patch_function) -/

/-- One row of the pre-patch report CSV, as read back in the post-patch
phase (all CSV fields are strings). -/
structure PostInRow where
  accountId : String
  roleName : String
  region : String
  windowId : String
  windowName : String
  targetCount : String
deriving DecidableEq

/-- One output row of the post-patch phase. -/
structure PostOutRow where
  accountId : String
  region : String
  roleName : String
  windowId : String
  windowName : String
  targetCount : String
  success : Nat
  failure : Nat
deriving DecidableEq

/-- The collaborators of the post-patch loop: assume_role as a session
provider over (account_id, role_name, region), and the SSM view obtained
from a session (session.client("ssm") bundled with the data visible through
it).  σ is the session type. -/
structure PostEnv (σ : Type) where
  assumeRole : String → String → String → σ
  senvOf : σ → SEnv

/-- The loop state: the cached (session, account_id, role_name, region), the
number of assume_role invocations so far, and the accumulated output rows. -/
structure LoopState (σ : Type) where
  cache : Option (σ × String × String × String)
  assumeCalls : Nat
  rows : List PostOutRow

/-- One iteration of the post-patch loop: reuse the cached session when all
three context fields match, otherwise call assume_role and replace the
cache; then call get_patch_status_counts.  When that call returns no result
(an exception was swallowed inside it), the tuple unpacking
success, failure = ... raises a TypeError that nothing inside the loop
catches — modelled as an error that aborts the fold. -/
def post_step {σ : Type} (env : PostEnv σ) (st : LoopState σ) (row : PostInRow) :
    Except Unit (LoopState σ) :=
  let step :=
    match st.cache with
    | none =>
      let s := env.assumeRole row.accountId row.roleName row.region
      (s, some (s, row.accountId, row.roleName, row.region), st.assumeCalls + 1)
    | some (s, a, r, g) =>
      if a == row.accountId && r == row.roleName && g == row.region then
        (s, some (s, a, r, g), st.assumeCalls)
      else
        let s2 := env.assumeRole row.accountId row.roleName row.region
        (s2, some (s2, row.accountId, row.roleName, row.region), st.assumeCalls + 1)
  match get_patch_status_counts (env.senvOf step.1) row.windowId with
  | none => Except.error ()
  | some (succ, failCnt) =>
    Except.ok ⟨step.2.1, step.2.2,
      st.rows ++ [⟨row.accountId, row.region, row.roleName, row.windowId,
        row.windowName, row.targetCount, succ, failCnt⟩]⟩

/-- The post-patch loop over the pre-patch rows, starting with an empty
cache. -/
def post_patch_loop {σ : Type} (env : PostEnv σ) (rows : List PostInRow) :
    Except Unit (LoopState σ) :=
  rows.foldlM (post_step env) ⟨none, 0, []⟩

/-- The (account_id, role_name, region) triple of a row. -/
def rowCtx (row : PostInRow) : String × String × String :=
  (row.accountId, row.roleName, row.region)

/-- Number of context switches along a list, given the previous context. -/
def changeCount : String × String × String → List (String × String × String) → Nat
  | _, [] => 0
  | prev, c :: l => (if c = prev then 0 else 1) + changeCount c l

/-- Number of maximal runs of equal consecutive contexts. -/
def runCount : List (String × String × String) → Nat
  | [] => 0
  | c :: l => 1 + changeCount c l

/-- Number of assume_role invocations recorded in a loop outcome (0 when the
loop aborted). -/
def loopCalls {σ : Type} : Except Unit (LoopState σ) → Nat
  | Except.ok st => st.assumeCalls
  | Except.error _ => 0

/-! ## Pre-patch window scan (pre_patch_notification's window loop) -/

/-- An account row of accounts.csv. -/
structure AccountContext where
  accountId : String
  roleName : String
  region : String
deriving DecidableEq

/-- One WindowIdentities entry as used by the pre-patch loop: WindowId, Name
(the empty string models a missing Name, matching mw.get("Name", "")), and
the optional NextExecutionTime (opaque here; the runs_today day filter over
it is a parameter of the scan). -/
structure MW where
  windowId : String
  name : String
  nextExecutionTime : Option Nat
deriving DecidableEq

/-- One pre-patch report row. -/
structure PreReportRow where
  accountId : String
  region : String
  roleName : String
  windowId : String
  windowName : String
  targetInstanceCount : Nat
deriving DecidableEq

/-- The pre-patch window loop for one account: a window is skipped when it
has no NextExecutionTime, when its Name does not start with "mmpatching", or
when runs_today rejects its time; otherwise get_target_count is consulted
(recorded in the second component) and a report row is appended.  runs_today
(wall-clock dependent in the source) and the target-count resolution are
parameters. -/
def pre_patch_scan (acct : AccountContext) (runsToday : Nat → Bool)
    (targetCount : String → Nat) (mws : List MW) : List PreReportRow × List String :=
  mws.foldl (fun acc mw =>
    match mw.nextExecutionTime with
    | none => acc
    | some t =>
      if !(strStartsWith mw.name "mmpatching") then acc
      else if runsToday t then
        (acc.1 ++ [⟨acct.accountId, acct.region, acct.roleName, mw.windowId,
          mw.name, targetCount mw.windowId⟩], acc.2 ++ [mw.windowId])
      else acc) ([], [])

-- sanity checks (scratch)
example :
    get_patch_status_counts
      ⟨fun _ => Except.ok [⟨"we3", 5⟩, ⟨"we1", 7⟩],
       fun eid => if eid == "we1" then
           Except.ok [⟨"AWS-RunPatchBaseline", "t1"⟩, ⟨"Other", "t2"⟩]
         else Except.ok [],
       fun _ _ => Except.ok [⟨ParamsField.parsed ["Install"], "cmd1"⟩,
         ⟨ParamsField.parsed ["Scan"], "cmd2"⟩],
       fun cid => if cid == "cmd1" then
           Except.ok [⟨"i1", "Success"⟩, ⟨"i2", "Failed"⟩, ⟨"i3", "InProgress"⟩]
         else Except.ok [⟨"i1", "Success"⟩]⟩
      "mw-1" = some (1, 1) := by rfl

example :
    get_patch_status_counts
      ⟨fun _ => Except.ok [], fun _ => Except.ok [], fun _ _ => Except.ok [],
       fun _ => Except.ok []⟩ "not-a-window" = some (0, 0) := by rfl

example :
    post_patch_loop
      (⟨fun _ _ _ => (),
        fun _ => ⟨fun _ => Except.error (), fun _ => Except.ok [],
          fun _ _ => Except.ok [], fun _ => Except.ok []⟩⟩ : PostEnv Unit)
      [⟨"1", "r", "g", "mw-1", "w1", "5"⟩, ⟨"1", "r", "g", "zz", "w2", "5"⟩]
      = Except.error () := by rfl

example :
    (pre_patch_scan ⟨"1", "r", "g"⟩ (fun t => t == 3) (fun _ => 7)
      [⟨"mw-a", "mmpatching-a", some 3⟩, ⟨"mw-b", "other", some 3⟩,
       ⟨"mw-c", "mmpatching-c", none⟩, ⟨"mw-d", "mmpatching-d", some 4⟩]).2
      = ["mw-a"] := by rfl

/-! ## General helper lemmas -/

theorem ok_bind {α β : Type} (a : α) (f : α → Except Unit β) :
    (Except.ok a >>= f) = f a := rfl

theorem error_bind {α β : Type} (f : α → Except Unit β) :
    ((Except.error () : Except Unit α) >>= f) = Except.error () := rfl

theorem any_perm_eq {α : Type} (p : α → Bool) {l l' : List α} (h : l.Perm l') :
    l.any p = l'.any p := by
  rw [Bool.eq_iff_iff]
  simp only [List.any_eq_true]
  constructor
  · rintro ⟨x, hx, hpx⟩
    exact ⟨x, h.mem_iff.mp hx, hpx⟩
  · rintro ⟨x, hx, hpx⟩
    exact ⟨x, h.mem_iff.mpr hx, hpx⟩

theorem isEmpty_perm {α : Type} {l l' : List α} (h : l.Perm l') :
    l.isEmpty = l'.isEmpty := by
  rw [Bool.eq_iff_iff]
  simp only [List.isEmpty_eq_true]
  constructor
  · intro hl
    subst hl
    exact h.symm.eq_nil
  · intro hl
    subst hl
    exact h.eq_nil

/-- If the first element of l satisfying q is a, p implies q pointwise and a
satisfies p, then a is also the first element of l satisfying p. -/
theorem find?_first_trans {α : Type} (p q : α → Bool) :
    ∀ (l : List α) (a : α), List.find? q l = some a → p a = true →
      (∀ x, p x = true → q x = true) → List.find? p l = some a := by
  intro l
  induction l with
  | nil =>
    intro a h
    simp at h
  | cons x xs ih =>
    intro a hq hpa himp
    by_cases hpx : p x = true
    · have hqx : q x = true := himp x hpx
      rw [List.find?_cons_of_pos _ hqx] at hq
      have hxa : x = a := Option.some.inj hq
      subst hxa
      exact List.find?_cons_of_pos _ hpx
    · have hqx : ¬ q x = true := by
        intro hqx
        rw [List.find?_cons_of_pos _ hqx] at hq
        have hxa : x = a := Option.some.inj hq
        subst hxa
        exact hpx hpa
      rw [List.find?_cons_of_neg _ hpx]
      rw [List.find?_cons_of_neg _ hqx] at hq
      exact ih a hq hpa himp

/-! ## Target Resolver lemmas -/

theorem iid_key_not_tag {r : Rule} (h : (r.key == "InstanceIds") = true) :
    strStartsWith r.key "tag:" = false := by
  have hk : r.key = "InstanceIds" := by simpa using h
  rw [hk]
  rfl

/-- Closed form of the rule loop of one MW target: it raises iff some rule
reaches the resource-group branch, and otherwise yields the InstanceIds
length sum and the collected tag filters. -/
theorem processRules_eq (rules : List Rule) :
    ∀ (n : Nat) (fs : List Filter),
      List.foldlM processRule (n, fs) rules =
        if hasRG rules then Except.error ()
        else Except.ok (n + iidSum rules, fs ++ ruleTagFilters rules) := by
  induction rules with
  | nil =>
    intro n fs
    simp only [hasRG, List.any_nil, iidSum, List.map_nil, List.sum_nil,
      ruleTagFilters, List.filterMap_nil, List.foldlM_nil, Nat.add_zero,
      List.append_nil, if_false, Bool.false_eq_true]
    rfl
  | cons r rs ih =>
    intro n fs
    rw [List.foldlM_cons]
    by_cases h1 : (r.key == "InstanceIds") = true
    · have hrule : processRule (n, fs) r = Except.ok (n + r.values.length, fs) := by
        simp [processRule, h1]
      rw [hrule, ok_bind, ih]
      have hrg : isRGRule r = false := by simp [isRGRule, h1]
      have hlen : ruleIidLen r = r.values.length := by simp [ruleIidLen, h1]
      have htf : ruleTagFilter r = none := by simp [ruleTagFilter, h1]
      simp [hasRG, List.any_cons, hrg, iidSum, hlen, ruleTagFilters,
        List.filterMap_cons, htf, Nat.add_assoc]
    · by_cases h2 : strStartsWith r.key "tag:" = true
      · have hrule : processRule (n, fs) r = Except.ok (n, fs ++ [mkTagFilter r]) := by
          simp [processRule, h1, h2]
        rw [hrule, ok_bind, ih]
        have hrg : isRGRule r = false := by simp [isRGRule, h2]
        have hlen : ruleIidLen r = 0 := by simp [ruleIidLen, h1]
        have htf : ruleTagFilter r = some (mkTagFilter r) := by
          simp [ruleTagFilter, h1, h2]
        simp [hasRG, List.any_cons, hrg, iidSum, hlen, ruleTagFilters,
          List.filterMap_cons, htf, List.append_assoc]
      · by_cases h3 : (r.key == "resource-groups:Name") = true
        · have hrule : processRule (n, fs) r = Except.error () := by
            simp [processRule, h1, h2, h3]
          rw [hrule, error_bind]
          have hrg : isRGRule r = true := by simp [isRGRule, h1, h2, h3]
          simp [hasRG, List.any_cons, hrg]
        · have hrule : processRule (n, fs) r = Except.ok (n, fs) := by
            simp [processRule, h1, h2, h3]
          rw [hrule, ok_bind, ih]
          have hrg : isRGRule r = false := by simp [isRGRule, h3]
          have hlen : ruleIidLen r = 0 := by simp [ruleIidLen, h1]
          have htf : ruleTagFilter r = none := by simp [ruleTagFilter, h1, h2]
          simp [hasRG, List.any_cons, hrg, iidSum, hlen, ruleTagFilters,
            List.filterMap_cons, htf]

/-- Per-target closed form of processTarget when no rule reaches the
resource-group branch and the tag lookup (if consulted) succeeds. -/
theorem processTarget_ok (ec2 : Ec2) (t : MWTarget)
    (hnoRG : hasRG t.targets = false)
    (hok : (ruleTagFilters t.targets).isEmpty = true ∨
      isOkE (ec2 (ruleTagFilters t.targets)) = true) (n : Nat) :
    processTarget ec2 n t = Except.ok (n + (iidSum t.targets + tagCount ec2 t)) := by
  unfold processTarget
  rw [processRules_eq, hnoRG]
  simp only [Bool.false_eq_true, if_false, List.nil_append]
  by_cases hemp : (ruleTagFilters t.targets).isEmpty = true
  · simp [hemp, tagCount, Nat.add_zero]
  · have hoke : isOkE (ec2 (ruleTagFilters t.targets)) = true := by
      rcases hok with h | h
      · exact absurd h hemp
      · exact h
    cases hec : ec2 (ruleTagFilters t.targets) with
    | error e =>
      rw [hec] at hoke
      simp [isOkE] at hoke
    | ok ids =>
      simp [hemp, hec, tagCount, Nat.add_assoc]

/-- Folding processTarget over targets whose per-target outcome is a
deterministic increment sums the increments. -/
theorem foldlM_target_sum (ec2 : Ec2) (f : MWTarget → Nat) :
    ∀ (ts : List MWTarget) (n : Nat),
      (∀ t ∈ ts, ∀ m, processTarget ec2 m t = Except.ok (m + f t)) →
      List.foldlM (processTarget ec2) n ts = Except.ok (n + (ts.map f).sum) := by
  intro ts
  induction ts with
  | nil =>
    intro n h
    simp only [List.map_nil, List.sum_nil, Nat.add_zero, List.foldlM_nil]
    rfl
  | cons t ts ih =>
    intro n h
    rw [List.foldlM_cons, h t (List.mem_cons_self t ts) n, ok_bind,
      ih _ (fun u hu m => h u (List.mem_cons_of_mem t hu) m)]
    simp [Nat.add_assoc]

/-- processTarget is invariant under permuting the rules of an MW target,
provided the instance lookup treats its filter list as a set. -/
theorem processTarget_perm (ec2 : Ec2) {t t' : MWTarget}
    (ht : t.targets.Perm t'.targets)
    (hec2 : ∀ f f', f.Perm f' → ec2 f = ec2 f') (n : Nat) :
    processTarget ec2 n t = processTarget ec2 n t' := by
  have hRG : hasRG t.targets = hasRG t'.targets := any_perm_eq isRGRule ht
  have hSum : iidSum t.targets = iidSum t'.targets :=
    List.Perm.sum_eq (List.Perm.map ruleIidLen ht)
  have hTF : (ruleTagFilters t.targets).Perm (ruleTagFilters t'.targets) :=
    List.Perm.filterMap ruleTagFilter ht
  have hEmpty : (ruleTagFilters t.targets).isEmpty =
      (ruleTagFilters t'.targets).isEmpty := isEmpty_perm hTF
  have hec : ec2 (ruleTagFilters t.targets) = ec2 (ruleTagFilters t'.targets) :=
    hec2 _ _ hTF
  unfold processTarget
  rw [processRules_eq, processRules_eq, hRG, hSum]
  by_cases hr : hasRG t'.targets = true
  · simp [hr]
  · simp only [Bool.not_eq_true] at hr
    rw [hr]
    simp only [Bool.false_eq_true, if_false, List.nil_append]
    rw [hEmpty, hec]

/-- The target fold is invariant under per-target rule permutations. -/
theorem foldlM_target_perm (ec2 : Ec2) {ts ts' : List MWTarget}
    (h : List.Forall₂ (fun t t' => t.targets.Perm t'.targets) ts ts')
    (hec2 : ∀ f f', f.Perm f' → ec2 f = ec2 f') :
    ∀ n, List.foldlM (processTarget ec2) n ts =
      List.foldlM (processTarget ec2) n ts' := by
  induction h with
  | nil =>
    intro n
    rfl
  | cons ha hl ih =>
    intro n
    rw [List.foldlM_cons, List.foldlM_cons, processTarget_perm ec2 ha hec2 n]
    cases hpt : processTarget ec2 n _ with
    | error e =>
      cases e
      rw [error_bind, error_bind]
    | ok m =>
      rw [ok_bind, ok_bind, ih m]

/-! ## Claim theorems for the Target Resolver -/

/-- Claim C1 (counterexample): the value returned by get_target_count is NOT
the sum over MW targets of the cardinality of the union of instance
identifiers resolved from all rule variants: for one MW target with two
InstanceIds rules both listing "i-1", the code returns 2 (it adds the raw
value-list lengths) while the claimed union cardinality is 1. -/
theorem c1_union_claim_counterexample :
    get_target_count
      (Except.ok [⟨[⟨"InstanceIds", ["i-1"]⟩, ⟨"InstanceIds", ["i-1"]⟩]⟩])
      (fun _ => Except.ok []) (fun _ => Except.ok []) = 2 ∧
    specTargetUnionCount [⟨[⟨"InstanceIds", ["i-1"]⟩, ⟨"InstanceIds", ["i-1"]⟩]⟩]
      (fun _ => []) (fun _ => []) = 1 ∧
    get_target_count
      (Except.ok [⟨[⟨"InstanceIds", ["i-1"]⟩, ⟨"InstanceIds", ["i-1"]⟩]⟩])
      (fun _ => Except.ok []) (fun _ => Except.ok []) ≠
    specTargetUnionCount [⟨[⟨"InstanceIds", ["i-1"]⟩, ⟨"InstanceIds", ["i-1"]⟩]⟩]
      (fun _ => []) (fun _ => []) :=
  ⟨rfl, rfl, by decide⟩

/-- Claim C1 (amended): when no rule reaches the resource-group branch and
the needed tag lookups succeed, get_target_count equals the sum over MW
targets of (raw InstanceIds value-list lengths) plus (the cardinality of the
deduplicated instance-id set resolved from the target's tag rules): instance
ids are deduplicated only inside one MW target's tag resolution, not against
InstanceIds values and not across MW targets. -/
theorem c1_target_count_amended (ec2 : Ec2) (rg : Rg) (ts : List MWTarget)
    (hnoRG : ∀ t ∈ ts, hasRG t.targets = false)
    (hok : ∀ t ∈ ts, (ruleTagFilters t.targets).isEmpty = true ∨
      isOkE (ec2 (ruleTagFilters t.targets)) = true) :
    get_target_count (Except.ok ts) ec2 rg =
      (ts.map (fun t => iidSum t.targets + tagCount ec2 t)).sum := by
  have hfold := foldlM_target_sum ec2 (fun t => iidSum t.targets + tagCount ec2 t) ts 0
    (fun t ht m => processTarget_ok ec2 t (hnoRG t ht) (hok t ht) m)
  simp only [get_target_count, get_target_count_core, hfold, Nat.zero_add]

/-- Claim C1 (amended) witness at a concrete window: one MW target with a
duplicated InstanceIds list and one MW target with a tag rule resolving to
the set {"i-2", "i-3"}. -/
theorem c1_target_count_amended_witness :
    get_target_count
      (Except.ok [⟨[⟨"InstanceIds", ["i-1", "i-1"]⟩]⟩, ⟨[⟨"tag:Env", ["prod"]⟩]⟩])
      (fun _ => Except.ok ["i-2", "i-2", "i-3"]) (fun _ => Except.ok []) =
      (([⟨[⟨"InstanceIds", ["i-1", "i-1"]⟩]⟩, ⟨[⟨"tag:Env", ["prod"]⟩]⟩] :
          List MWTarget).map
        (fun t => iidSum t.targets +
          tagCount (fun _ => Except.ok ["i-2", "i-2", "i-3"]) t)).sum :=
  c1_target_count_amended (fun _ => Except.ok ["i-2", "i-2", "i-3"])
    (fun _ => Except.ok [])
    [⟨[⟨"InstanceIds", ["i-1", "i-1"]⟩]⟩, ⟨[⟨"tag:Env", ["prod"]⟩]⟩]
    (by decide) (by decide)

/-- Claim C2: the resource-group branch of get_target_count never resolves a
group.  The source's debug log reads the loop variable group_name before the
loop that binds it, raising UnboundLocalError; the handler then returns 0 for
the whole window.  For a window whose single MW target holds one
resource-group rule naming a group with exactly one compute-instance member,
the code returns 0 while the claimed contribution of that group is 1. -/
theorem c2_resource_group_bug :
    get_target_count
      (Except.ok [⟨[⟨"resource-groups:Name", ["grp1"]⟩]⟩])
      (fun _ => Except.ok [])
      (fun _ => Except.ok [⟨"AWS::EC2::Instance", "i-9"⟩]) = 0 ∧
    groupInstanceCount [⟨"AWS::EC2::Instance", "i-9"⟩] = 1 :=
  ⟨rfl, rfl⟩

/-- Claim C5: when anything raised inside get_target_count's try block (any
pagination or lookup failure, modelled by the core returning an error), the
function returns 0 for the whole window — partial sub-totals are discarded
and no exception escapes (the function is total). -/
theorem c5_lookup_failure_yields_zero (ssm : Except Unit (List MWTarget))
    (ec2 : Ec2) (rg : Rg)
    (h : get_target_count_core ssm ec2 rg = Except.error ()) :
    get_target_count ssm ec2 rg = 0 := by
  unfold get_target_count
  rw [h]

/-- Claim C5 witness: the first MW target already contributes 1, then the
tag lookup of the second MW target raises; the whole window reports 0. -/
theorem c5_lookup_failure_yields_zero_witness :
    get_target_count_core
      (Except.ok [⟨[⟨"InstanceIds", ["i-1"]⟩]⟩, ⟨[⟨"tag:Env", ["prod"]⟩]⟩])
      (fun _ => Except.error ()) (fun _ => Except.ok []) = Except.error () ∧
    get_target_count
      (Except.ok [⟨[⟨"InstanceIds", ["i-1"]⟩]⟩, ⟨[⟨"tag:Env", ["prod"]⟩]⟩])
      (fun _ => Except.error ()) (fun _ => Except.ok []) = 0 :=
  ⟨rfl, c5_lookup_failure_yields_zero _ _ _ rfl⟩

/-- Claim C9: get_target_count is invariant under permuting the rules listed
inside each MW target, provided the instance lookup is insensitive to the
order of its filter list (the AWS filter list is a conjunction of filters). -/
theorem c9_rule_order_independent (ec2 : Ec2) (rg : Rg) (ts ts' : List MWTarget)
    (hperm : List.Forall₂ (fun t t' => t.targets.Perm t'.targets) ts ts')
    (hec2 : ∀ f f', f.Perm f' → ec2 f = ec2 f') :
    get_target_count (Except.ok ts) ec2 rg =
      get_target_count (Except.ok ts') ec2 rg := by
  have h := foldlM_target_perm ec2 hperm hec2 0
  simp only [get_target_count, get_target_count_core, h]

/-- Claim C9 witness: swapping an InstanceIds rule and a tag rule inside one
MW target leaves the count unchanged. -/
theorem c9_rule_order_independent_witness :
    get_target_count
      (Except.ok [⟨[⟨"InstanceIds", ["i-1"]⟩, ⟨"tag:Env", ["prod"]⟩]⟩])
      (fun _ => Except.ok ["i-2"]) (fun _ => Except.ok []) =
    get_target_count
      (Except.ok [⟨[⟨"tag:Env", ["prod"]⟩, ⟨"InstanceIds", ["i-1"]⟩]⟩])
      (fun _ => Except.ok ["i-2"]) (fun _ => Except.ok []) :=
  c9_rule_order_independent (fun _ => Except.ok ["i-2"]) (fun _ => Except.ok [])
    [⟨[⟨"InstanceIds", ["i-1"]⟩, ⟨"tag:Env", ["prod"]⟩]⟩]
    [⟨[⟨"tag:Env", ["prod"]⟩, ⟨"InstanceIds", ["i-1"]⟩]⟩]
    (List.Forall₂.cons
      (List.Perm.swap (⟨"tag:Env", ["prod"]⟩ : Rule)
        (⟨"InstanceIds", ["i-1"]⟩ : Rule) [])
      List.Forall₂.nil)
    (fun _ _ _ => rfl)

/-! ## Execution Status Resolver lemmas -/

/-- The head of the stable descending sort is the first element of the input
attaining the maximal start time. -/
theorem latest_is_first_max :
    ∀ (l : List Execution), l ≠ [] →
      l.find? (fun x => l.all fun y => decide (y.startTime ≤ x.startTime)) =
        some (latestExecution l) := by
  intro l
  induction l with
  | nil =>
    intro h
    exact absurd rfl h
  | cons a l ih =>
    intro _
    by_cases hl : l = []
    · subst hl
      have hp : ([a].all fun y => decide (y.startTime ≤ a.startTime)) = true := by
        simp
      exact List.find?_cons_of_pos _ hp
    · have IH := ih hl
      have hmem : latestExecution l ∈ l := List.mem_of_find?_eq_some IH
      have hpm := List.find?_some IH
      have hmax : ∀ y ∈ l, y.startTime ≤ (latestExecution l).startTime := by
        intro y hy
        have := List.all_eq_true.mp hpm y hy
        simpa using this
      have hsortne : List.insertionSort descByStartTime l ≠ [] := by
        intro hnil
        apply hl
        have hlen := (List.perm_insertionSort descByStartTime l).length_eq
        rw [hnil] at hlen
        exact List.length_eq_zero.mp hlen.symm
      obtain ⟨b, rest, hbrest⟩ := List.exists_cons_of_ne_nil hsortne
      have hbm : latestExecution l = b := by
        unfold latestExecution
        rw [hbrest]
        rfl
      rw [hbm] at IH hmem hpm hmax
      by_cases hcmp : b.startTime ≤ a.startTime
      · have hlat : latestExecution (a :: l) = a := by
          unfold latestExecution
          simp only [List.insertionSort]
          rw [hbrest, List.orderedInsert_of_le descByStartTime rest hcmp]
          rfl
        have hpa : ((a :: l).all fun y => decide (y.startTime ≤ a.startTime)) = true := by
          rw [List.all_eq_true]
          intro y hy
          rw [decide_eq_true_eq]
          rcases List.mem_cons.mp hy with h | h
          · subst h
            exact Nat.le_refl _
          · exact Nat.le_trans (hmax y h) hcmp
        rw [hlat]
        exact List.find?_cons_of_pos _ hpa
      · push_neg at hcmp
        have hlat : latestExecution (a :: l) = b := by
          unfold latestExecution
          simp only [List.insertionSort]
          rw [hbrest]
          have hins : List.orderedInsert descByStartTime a (b :: rest) =
              b :: List.orderedInsert descByStartTime a rest := by
            simp only [List.orderedInsert]
            rw [if_neg]
            intro hle
            exact absurd hle (Nat.not_le.mpr hcmp)
          rw [hins]
          rfl
        have hpa : ¬ ((a :: l).all fun y => decide (y.startTime ≤ a.startTime)) = true := by
          intro hT
          have := List.all_eq_true.mp hT b (List.mem_cons_of_mem a hmem)
          rw [decide_eq_true_eq] at this
          exact absurd this (Nat.not_le.mpr hcmp)
        rw [hlat]
        have hstep : List.find?
            (fun x => (a :: l).all fun y => decide (y.startTime ≤ x.startTime)) (a :: l) =
            List.find?
            (fun x => (a :: l).all fun y => decide (y.startTime ≤ x.startTime)) l :=
          List.find?_cons_of_neg _ hpa
        rw [hstep]
        apply find?_first_trans _
          (fun x => l.all fun y => decide (y.startTime ≤ x.startTime)) l b IH
        · rw [List.all_cons, hpm, decide_eq_true (Nat.le_of_lt hcmp)]
          rfl
        · intro x hx
          exact List.all_eq_true.mpr
            (fun y hy => List.all_eq_true.mp hx y (List.mem_cons_of_mem a hy))

/-- Fold of the tally step over per-instance command results, in closed
form: the two counters count exactly the "Success" results and exactly the
failure-status results. -/
theorem foldl_tally_counts :
    ∀ (cmds : List CommandInvocation) (acc : Nat × Nat),
      cmds.foldl (fun a c => tallyStatus a c.status) acc =
        (acc.1 + cmds.countP (fun c => c.status == "Success"),
         acc.2 + cmds.countP (fun c => isFailureStatus c.status)) := by
  intro cmds
  induction cmds with
  | nil =>
    intro acc
    simp
  | cons c cs ih =>
    intro acc
    rw [List.foldl_cons, ih, List.countP_cons, List.countP_cons]
    by_cases hs : (c.status == "Success") = true
    · have hst : c.status = "Success" := by simpa using hs
      have hf : isFailureStatus c.status = false := by
        rw [hst]
        rfl
      simp only [tallyStatus, hs, if_true, hf, Bool.false_eq_true, if_false,
        Prod.mk.injEq]
      omega
    · have hsf := Bool.eq_false_iff.mpr hs
      by_cases hf : isFailureStatus c.status = true
      · simp only [tallyStatus, hsf, Bool.false_eq_true, if_false, hf, if_true,
          Prod.mk.injEq]
        omega
      · have hff := Bool.eq_false_iff.mpr hf
        simp only [tallyStatus, hsf, hff, Bool.false_eq_true, if_false,
          Prod.mk.injEq]
        omega

/-! ## Claim theorems for the Execution Status Resolver -/

/-- Claim C4: a window id without the "mw-" prefix yields (0, 0) immediately
and without error; an empty execution list yields (0, 0); and otherwise the
tallies are computed solely from the execution selected as the first element
of the input attaining the maximal start time (the head of the stable
descending sort, matching Python's stable reverse sort). -/
theorem c4_guard_and_latest_selection :
    (∀ (env : SEnv) (wid : String), strStartsWith wid "mw-" = false →
      get_patch_status_counts env wid = some (0, 0)) ∧
    (∀ (env : SEnv) (wid : String), strStartsWith wid "mw-" = true →
      env.listExecutions 10 = Except.ok [] →
      get_patch_status_counts env wid = some (0, 0)) ∧
    (∀ (env : SEnv) (wid : String) (execs : List Execution) (e : Execution),
      strStartsWith wid "mw-" = true →
      env.listExecutions 10 = Except.ok execs →
      execs.find? (fun x => execs.all fun y => decide (y.startTime ≤ x.startTime)) =
        some e →
      get_patch_status_counts_core env wid = tallyExecution env e.windowExecutionId) := by
  refine ⟨?_, ?_, ?_⟩
  · intro env wid h
    simp [get_patch_status_counts, get_patch_status_counts_core, h]
  · intro env wid h hexec
    simp [get_patch_status_counts, get_patch_status_counts_core, h, hexec]
  · intro env wid execs e h hexec hfind
    have hne : execs ≠ [] := by
      intro hn
      subst hn
      simp at hfind
    have hlm := latest_is_first_max execs hne
    rw [hlm] at hfind
    have he : latestExecution execs = e := Option.some.inj hfind
    have hemp : execs.isEmpty = false := List.isEmpty_eq_false.mpr hne
    simp [get_patch_status_counts_core, h, hexec, hemp, he]

/-- Claim C4 witness: a malformed id, an empty execution list, and a
three-execution list whose maximal start time 7 is attained first by "we1". -/
theorem c4_guard_and_latest_selection_witness :
    get_patch_status_counts
      ⟨fun _ => Except.ok [⟨"we3", 5⟩, ⟨"we1", 7⟩, ⟨"we2", 7⟩],
       fun _ => Except.ok [⟨"AWS-RunPatchBaseline", "t1"⟩],
       fun _ _ => Except.ok [⟨ParamsField.parsed ["Install"], "cmd1"⟩],
       fun _ => Except.ok [⟨"i1", "Success"⟩, ⟨"i2", "Failed"⟩]⟩
      "not-a-window" = some (0, 0) ∧
    get_patch_status_counts
      ⟨fun _ => Except.ok [], fun _ => Except.ok [], fun _ _ => Except.ok [],
       fun _ => Except.ok []⟩ "mw-0" = some (0, 0) ∧
    get_patch_status_counts_core
      ⟨fun _ => Except.ok [⟨"we3", 5⟩, ⟨"we1", 7⟩, ⟨"we2", 7⟩],
       fun _ => Except.ok [⟨"AWS-RunPatchBaseline", "t1"⟩],
       fun _ _ => Except.ok [⟨ParamsField.parsed ["Install"], "cmd1"⟩],
       fun _ => Except.ok [⟨"i1", "Success"⟩, ⟨"i2", "Failed"⟩]⟩
      "mw-1" =
      tallyExecution
        ⟨fun _ => Except.ok [⟨"we3", 5⟩, ⟨"we1", 7⟩, ⟨"we2", 7⟩],
         fun _ => Except.ok [⟨"AWS-RunPatchBaseline", "t1"⟩],
         fun _ _ => Except.ok [⟨ParamsField.parsed ["Install"], "cmd1"⟩],
         fun _ => Except.ok [⟨"i1", "Success"⟩, ⟨"i2", "Failed"⟩]⟩ "we1" :=
  ⟨c4_guard_and_latest_selection.1 _ "not-a-window" (by decide),
   c4_guard_and_latest_selection.2.1 _ "mw-0" (by decide) rfl,
   c4_guard_and_latest_selection.2.2 _ "mw-1"
     [⟨"we3", 5⟩, ⟨"we1", 7⟩, ⟨"we2", 7⟩] ⟨"we1", 7⟩ (by decide) rfl (by decide)⟩

/-- Claim C6: an invocation whose operation list does not contain "Install"
contributes nothing to either counter regardless of its command statuses; an
unparsable Parameters payload yields the empty operation list; and in
particular a parsed ["Scan"] operation list is excluded. -/
theorem c6_install_only :
    (∀ (env : SEnv) (acc : Nat × Nat) (inv : Invocation),
      ((extractOperation inv.parameters).contains "Install") = false →
      processInvocation env acc inv = Except.ok acc) ∧
    extractOperation ParamsField.malformed = [] ∧
    (∀ (env : SEnv) (acc : Nat × Nat) (inv : Invocation),
      inv.parameters = ParamsField.parsed ["Scan"] →
      processInvocation env acc inv = Except.ok acc) := by
  refine ⟨?_, rfl, ?_⟩
  · intro env acc inv h
    have h2 : ¬ "Install" ∈ extractOperation inv.parameters := by
      simpa using h
    simp [processInvocation, h2]
  · intro env acc inv h
    simp [processInvocation, h, extractOperation]

/-- Claim C6 witness: a Scan-only invocation whose command would report
"Success" still contributes nothing. -/
theorem c6_install_only_witness :
    processInvocation
      ⟨fun _ => Except.ok [], fun _ => Except.ok [], fun _ _ => Except.ok [],
       fun _ => Except.ok [⟨"i1", "Success"⟩]⟩
      (2, 3) ⟨ParamsField.parsed ["Scan"], "cmd1"⟩ = Except.ok (2, 3) :=
  c6_install_only.2.2 _ (2, 3) ⟨ParamsField.parsed ["Scan"], "cmd1"⟩ rfl

/-- Claim C7: "Success" increments the success counter by one, each of the
four failure statuses increments the failure counter by one, any other
status increments neither, and the fold of the tally over a command-result
list therefore returns exactly the counts of these classified results. -/
theorem c7_status_classification (acc : Nat × Nat) :
    tallyStatus acc "Success" = (acc.1 + 1, acc.2) ∧
    tallyStatus acc "Failed" = (acc.1, acc.2 + 1) ∧
    tallyStatus acc "TimedOut" = (acc.1, acc.2 + 1) ∧
    tallyStatus acc "Cancelled" = (acc.1, acc.2 + 1) ∧
    tallyStatus acc "ExecutionTimedOut" = (acc.1, acc.2 + 1) ∧
    (∀ st : String, st ≠ "Success" → isFailureStatus st = false →
      tallyStatus acc st = acc) ∧
    (∀ cmds : List CommandInvocation,
      cmds.foldl (fun a c => tallyStatus a c.status) acc =
        (acc.1 + cmds.countP (fun c => c.status == "Success"),
         acc.2 + cmds.countP (fun c => isFailureStatus c.status))) := by
  refine ⟨rfl, rfl, rfl, rfl, rfl, ?_, fun cmds => foldl_tally_counts cmds acc⟩
  intro st h1 h2
  simp [tallyStatus, beq_eq_false_iff_ne.mpr h1, h2]

/-- Claim C7 witness: an "InProgress" status leaves the counters unchanged. -/
theorem c7_status_classification_witness :
    tallyStatus (3, 4) "InProgress" = (3, 4) :=
  (c7_status_classification (3, 4)).2.2.2.2.2.1 "InProgress" (by decide) (by decide)

/-! ## Post-patch loop lemmas -/

/-- Consistency of the session cache: a cached session was produced by the
session provider from the cached context triple. -/
def cacheOK {σ : Type} (env : PostEnv σ) : Option (σ × String × String × String) → Prop
  | none => True
  | some (s, a, r, g) => s = env.assumeRole a r g

/-- The session the loop would use for a row when the cache misses. -/
def sessionFor {σ : Type} (env : PostEnv σ) (row : PostInRow) : σ :=
  env.assumeRole row.accountId row.roleName row.region

/-- The status-lookup outcome the loop observes for a row. -/
def lookupFor {σ : Type} (env : PostEnv σ) (row : PostInRow) : Option (Nat × Nat) :=
  get_patch_status_counts (env.senvOf (sessionFor env row)) row.windowId

/-- Number of session-provider invocations one loop step performs. -/
def stepCalls {σ : Type} (cache : Option (σ × String × String × String))
    (row : PostInRow) : Nat :=
  match cache with
  | none => 1
  | some (_, a, r, g) =>
    if a == row.accountId && r == row.roleName && g == row.region then 0 else 1

/-- Expected provider invocations for a context sequence given the cache. -/
def expectedCalls {σ : Type} (cache : Option (σ × String × String × String))
    (ctxs : List (String × String × String)) : Nat :=
  match cache with
  | none => runCount ctxs
  | some (_, a, r, g) => changeCount (a, r, g) ctxs

/-- Characterization of one loop step under a consistent cache: the session
used is the one the provider yields for the row's own triple, the cache ends
holding that session and triple, the call counter grows by stepCalls, and a
missing lookup result aborts the step. -/
theorem post_step_char {σ : Type} (env : PostEnv σ) (st : LoopState σ)
    (row : PostInRow) (hc : cacheOK env st.cache) :
    post_step env st row =
      match lookupFor env row with
      | none => Except.error ()
      | some (succ, failCnt) =>
        Except.ok ⟨some (sessionFor env row, row.accountId, row.roleName, row.region),
          st.assumeCalls + stepCalls st.cache row,
          st.rows ++ [⟨row.accountId, row.region, row.roleName, row.windowId,
            row.windowName, row.targetCount, succ, failCnt⟩]⟩ := by
  cases hcache : st.cache with
  | none =>
    simp only [post_step, hcache, lookupFor, sessionFor, stepCalls]
  | some v =>
    obtain ⟨s, a, r, g⟩ := v
    rw [hcache] at hc
    have hs : s = env.assumeRole a r g := hc
    by_cases hb : (a == row.accountId && r == row.roleName && g == row.region) = true
    · have h3 : a = row.accountId ∧ r = row.roleName ∧ g = row.region := by
        simpa [and_assoc] using hb
      obtain ⟨ha, hr, hg⟩ := h3
      subst ha
      subst hr
      subst hg
      simp only [post_step, hcache, hb, if_true, lookupFor, sessionFor, stepCalls,
        ← hs, Nat.add_zero]
    · simp only [post_step, hcache, hb, if_false, lookupFor, sessionFor, stepCalls,
        Bool.false_eq_true]

/-- Under a consistent cache, one missing lookup result anywhere in the row
list makes the whole fold abort with an error. -/
theorem loop_err {σ : Type} (env : PostEnv σ) :
    ∀ (rows : List PostInRow) (st : LoopState σ), cacheOK env st.cache →
      ∀ row ∈ rows, lookupFor env row = none →
        List.foldlM (post_step env) st rows = Except.error () := by
  intro rows
  induction rows with
  | nil =>
    intro st hc row hmem
    exact absurd hmem (List.not_mem_nil row)
  | cons r0 rest ih =>
    intro st hc row hmem hnone
    rw [List.foldlM_cons, post_step_char env st r0 hc]
    rcases List.mem_cons.mp hmem with h | h
    · subst h
      simp only [hnone]
      rfl
    · cases hlk : lookupFor env r0 with
      | none =>
        simp only [hlk]
        rfl
      | some p =>
        obtain ⟨s1, f1⟩ := p
        simp only [hlk]
        rw [ok_bind]
        exact ih _ rfl row h hnone

/-- Under a consistent cache, when every row's lookup succeeds the fold
succeeds and performs exactly expectedCalls further provider invocations. -/
theorem loop_calls {σ : Type} (env : PostEnv σ) :
    ∀ (rows : List PostInRow) (st : LoopState σ), cacheOK env st.cache →
      (∀ row ∈ rows, (lookupFor env row).isSome = true) →
      ∃ st2, List.foldlM (post_step env) st rows = Except.ok st2 ∧
        st2.assumeCalls = st.assumeCalls +
          expectedCalls st.cache (rows.map rowCtx) := by
  intro rows
  induction rows with
  | nil =>
    intro st hc hok
    refine ⟨st, rfl, ?_⟩
    cases hcache : st.cache with
    | none => simp [expectedCalls, runCount]
    | some v =>
      obtain ⟨s, a, r, g⟩ := v
      simp [expectedCalls, changeCount]
  | cons r0 rest ih =>
    intro st hc hok
    rw [List.foldlM_cons, post_step_char env st r0 hc]
    have hsome := hok r0 (List.mem_cons_self r0 rest)
    cases hlk : lookupFor env r0 with
    | none =>
      rw [hlk] at hsome
      simp at hsome
    | some p =>
      obtain ⟨s1, f1⟩ := p
      simp only [hlk]
      rw [ok_bind]
      obtain ⟨st2, heq, hcalls⟩ := ih
        ⟨some (sessionFor env r0, r0.accountId, r0.roleName, r0.region),
          st.assumeCalls + stepCalls st.cache r0,
          st.rows ++ [⟨r0.accountId, r0.region, r0.roleName, r0.windowId,
            r0.windowName, r0.targetCount, s1, f1⟩]⟩
        rfl (fun row h => hok row (List.mem_cons_of_mem r0 h))
      refine ⟨st2, heq, ?_⟩
      rw [hcalls]
      have hred : (⟨some (sessionFor env r0, r0.accountId, r0.roleName, r0.region),
          st.assumeCalls + stepCalls st.cache r0,
          st.rows ++ [⟨r0.accountId, r0.region, r0.roleName, r0.windowId,
            r0.windowName, r0.targetCount, s1, f1⟩]⟩ : LoopState σ).assumeCalls +
          expectedCalls (⟨some (sessionFor env r0, r0.accountId, r0.roleName,
            r0.region), st.assumeCalls + stepCalls st.cache r0,
            st.rows ++ [⟨r0.accountId, r0.region, r0.roleName, r0.windowId,
              r0.windowName, r0.targetCount, s1, f1⟩]⟩ : LoopState σ).cache
            (rest.map rowCtx) =
          st.assumeCalls + (stepCalls st.cache r0 +
            changeCount (r0.accountId, r0.roleName, r0.region) (rest.map rowCtx)) := by
        simp [expectedCalls, Nat.add_assoc]
      rw [hred]
      cases hcache : st.cache with
      | none =>
        simp only [expectedCalls, stepCalls, List.map_cons, runCount, rowCtx]
      | some v =>
        obtain ⟨s, a, r, g⟩ := v
        by_cases hb : (a == r0.accountId && r == r0.roleName && g == r0.region) = true
        · have h3 : a = r0.accountId ∧ r = r0.roleName ∧ g = r0.region := by
            simpa [and_assoc] using hb
          obtain ⟨ha, hr, hg⟩ := h3
          have hctx : ((r0.accountId, r0.roleName, r0.region) :
              String × String × String) = (a, r, g) := by
            simp [ha, hr, hg]
          simp only [expectedCalls, stepCalls, hb, if_true, List.map_cons,
            changeCount, rowCtx, hctx, if_pos rfl]
        · have hctx : ¬ (((r0.accountId, r0.roleName, r0.region) :
              String × String × String) = (a, r, g)) := by
            intro hEq
            apply hb
            simp only [Prod.mk.injEq] at hEq
            obtain ⟨h1, h2, h3⟩ := hEq
            simp [h1, h2, h3]
          simp only [expectedCalls, stepCalls, hb, if_false, List.map_cons,
            changeCount, rowCtx, if_neg hctx, Bool.false_eq_true]

/-! ## Claim theorems for the post-patch loop and pre-patch scan -/

/-- Claim C3 (counterexample): a window whose status resolution raises makes
get_patch_status_counts return no result, yet the post-patch loop does NOT
continue with the remaining rows: the missing result aborts the whole loop
(the second row, which would resolve fine, is never processed and no output
rows are produced). -/
theorem c3_locality_counterexample :
    get_patch_status_counts
      ⟨fun _ => Except.error (), fun _ => Except.ok [], fun _ _ => Except.ok [],
       fun _ => Except.ok []⟩ "mw-1" = none ∧
    get_patch_status_counts
      ⟨fun _ => Except.error (), fun _ => Except.ok [], fun _ _ => Except.ok [],
       fun _ => Except.ok []⟩ "zz-2" = some (0, 0) ∧
    post_patch_loop
      (⟨fun _ _ _ => (),
        fun _ => ⟨fun _ => Except.error (), fun _ => Except.ok [],
          fun _ _ => Except.ok [], fun _ => Except.ok []⟩⟩ : PostEnv Unit)
      [⟨"111", "role", "us-east-1", "mw-1", "w1", "5"⟩,
       ⟨"111", "role", "us-east-1", "zz-2", "w2", "5"⟩] = Except.error () :=
  ⟨rfl, rfl, rfl⟩

/-- Claim C3 (amended): an exception inside get_patch_status_counts is
swallowed there (the caller receives no (success, failure) result), but the
post-patch loop's tuple unpacking of that missing result raises an error
that nothing inside the loop catches: one bad window aborts the whole
post-patch pass instead of staying local to that window. -/
theorem c3_swallow_then_abort :
    (∀ (env : SEnv) (wid : String),
      get_patch_status_counts_core env wid = Except.error () →
      get_patch_status_counts env wid = none) ∧
    (∀ (σ : Type) (env : PostEnv σ) (rows : List PostInRow) (row : PostInRow),
      row ∈ rows →
      get_patch_status_counts
        (env.senvOf (env.assumeRole row.accountId row.roleName row.region))
        row.windowId = none →
      post_patch_loop env rows = Except.error ()) := by
  constructor
  · intro env wid h
    unfold get_patch_status_counts
    rw [h]
  · intro σ env rows row hmem hnone
    exact loop_err env rows ⟨none, 0, []⟩ trivial row hmem hnone

/-- Claim C3 (amended) witness: in the two-row run of the counterexample the
first row's missing status result aborts the whole loop. -/
theorem c3_swallow_then_abort_witness :
    post_patch_loop
      (⟨fun _ _ _ => (),
        fun _ => ⟨fun _ => Except.error (), fun _ => Except.ok [],
          fun _ _ => Except.ok [], fun _ => Except.ok []⟩⟩ : PostEnv Unit)
      [⟨"222", "role", "us-east-1", "mw-9", "w9", "3"⟩,
       ⟨"222", "role", "us-east-1", "zz-8", "w8", "3"⟩] = Except.error () :=
  c3_swallow_then_abort.2 Unit
    ⟨fun _ _ _ => (),
      fun _ => ⟨fun _ => Except.error (), fun _ => Except.ok [],
        fun _ _ => Except.ok [], fun _ => Except.ok []⟩⟩
    [⟨"222", "role", "us-east-1", "mw-9", "w9", "3"⟩,
     ⟨"222", "role", "us-east-1", "zz-8", "w8", "3"⟩]
    ⟨"222", "role", "us-east-1", "mw-9", "w9", "3"⟩
    (List.mem_cons_self _ _) rfl

/-- Claim C8: when every row's status lookup yields a result, the post-patch
loop succeeds and invokes the session provider exactly once per maximal run
of consecutive rows sharing the same (accountId, roleName, region) triple. -/
theorem c8_session_cache_runs :
    ∀ (σ : Type) (env : PostEnv σ) (rows : List PostInRow),
      (∀ row ∈ rows, (get_patch_status_counts
          (env.senvOf (env.assumeRole row.accountId row.roleName row.region))
          row.windowId).isSome = true) →
      isOkE (post_patch_loop env rows) = true ∧
      loopCalls (post_patch_loop env rows) = runCount (rows.map rowCtx) := by
  intro σ env rows hok
  obtain ⟨st2, heq, hcalls⟩ := loop_calls env rows ⟨none, 0, []⟩ trivial hok
  unfold post_patch_loop
  rw [heq]
  refine ⟨rfl, ?_⟩
  rw [show loopCalls (Except.ok st2) = st2.assumeCalls from rfl, hcalls]
  simp [expectedCalls]

/-- Environment for the C8 witness: the session is the account id itself and
every status lookup succeeds (the window ids lack the "mw-" prefix, so the
resolver's guard returns (0, 0)). -/
def envC8 : PostEnv String :=
  ⟨fun a _ _ => a,
   fun _ => ⟨fun _ => Except.ok [], fun _ => Except.ok [],
     fun _ _ => Except.ok [], fun _ => Except.ok []⟩⟩

/-- Rows for the C8 witness with account-context sequence [A, A, B, A]. -/
def rowsC8 : List PostInRow :=
  [⟨"A", "r1", "reg", "w1", "n1", "0"⟩, ⟨"A", "r1", "reg", "w2", "n2", "0"⟩,
   ⟨"B", "r1", "reg", "w3", "n3", "0"⟩, ⟨"A", "r1", "reg", "w4", "n4", "0"⟩]

/-- Claim C8 witness: for the context sequence [A, A, B, A] the loop succeeds
and the session provider is invoked exactly 3 times, not 4. -/
theorem c8_session_cache_runs_witness :
    isOkE (post_patch_loop envC8 rowsC8) = true ∧
    loopCalls (post_patch_loop envC8 rowsC8) = runCount (rowsC8.map rowCtx) ∧
    runCount (rowsC8.map rowCtx) = 3 :=
  ⟨(c8_session_cache_runs String envC8 rowsC8 (by decide)).1,
   (c8_session_cache_runs String envC8 rowsC8 (by decide)).2,
   by decide⟩

/-- Claim C10: the pre-patch window loop emits a report row for exactly the
windows that have a NextExecutionTime, whose Name starts with "mmpatching",
and whose time the day filter accepts; all other windows are skipped with no
row and no target-count lookup (second component). -/
theorem c10_pre_patch_gating (acct : AccountContext) (runsToday : Nat → Bool)
    (targetCount : String → Nat) (mws : List MW) :
    pre_patch_scan acct runsToday targetCount mws =
      ((mws.filter (fun mw =>
          match mw.nextExecutionTime with
          | none => false
          | some t => strStartsWith mw.name "mmpatching" && runsToday t)).map
        (fun mw => ⟨acct.accountId, acct.region, acct.roleName, mw.windowId,
          mw.name, targetCount mw.windowId⟩),
       (mws.filter (fun mw =>
          match mw.nextExecutionTime with
          | none => false
          | some t => strStartsWith mw.name "mmpatching" && runsToday t)).map
        (fun mw => mw.windowId)) := by
  suffices h : ∀ (l : List MW) (acc : List PreReportRow × List String),
      List.foldl (fun acc mw =>
        match mw.nextExecutionTime with
        | none => acc
        | some t =>
          if !(strStartsWith mw.name "mmpatching") then acc
          else if runsToday t then
            (acc.1 ++ [⟨acct.accountId, acct.region, acct.roleName, mw.windowId,
              mw.name, targetCount mw.windowId⟩], acc.2 ++ [mw.windowId])
          else acc) acc l =
        (acc.1 ++ (l.filter (fun mw =>
            match mw.nextExecutionTime with
            | none => false
            | some t => strStartsWith mw.name "mmpatching" && runsToday t)).map
          (fun mw => ⟨acct.accountId, acct.region, acct.roleName, mw.windowId,
            mw.name, targetCount mw.windowId⟩),
         acc.2 ++ (l.filter (fun mw =>
            match mw.nextExecutionTime with
            | none => false
            | some t => strStartsWith mw.name "mmpatching" && runsToday t)).map
          (fun mw => mw.windowId)) by
    have h2 := h mws ([], [])
    simpa [pre_patch_scan] using h2
  intro l
  induction l with
  | nil =>
    intro acc
    simp
  | cons mw rest ih =>
    intro acc
    rw [List.foldl_cons]
    cases hne : mw.nextExecutionTime with
    | none =>
      simp only [hne, ih, List.filter_cons]
      simp
    | some t =>
      by_cases hname : strStartsWith mw.name "mmpatching" = true
      · by_cases hrt : runsToday t = true
        · simp only [hne, hname, hrt, Bool.not_true, Bool.false_eq_true, if_false,
            if_true, ih, List.filter_cons, Bool.and_self, List.map_cons]
          simp [List.append_assoc]
        · have hrt2 : runsToday t = false := Bool.eq_false_iff.mpr hrt
          simp only [hne, hname, hrt2, Bool.not_true, Bool.false_eq_true, if_false,
            ih, List.filter_cons, Bool.and_false]
      · have hname2 : strStartsWith mw.name "mmpatching" = false :=
          Bool.eq_false_iff.mpr hname
        simp only [hne, hname2, Bool.not_false, if_true, ih, List.filter_cons,
          Bool.false_and, Bool.false_eq_true, if_false]

end EC2Patching
